import Mathlib

/-!
Verification of the MTG Card Lookup pipeline (Chrome extension + Lambda
backend).  The definitions below are a shallow embedding of the JavaScript
source: `src/sam-backend/src/index.js` (the Lambda handler with image
validation, OCR dispatch, name normalization, rate-limited Scryfall lookup
and double-faced-card merge) and `src/content.js` (region capture geometry
and the overlay UI state driven by lookup responses).

Strings are modelled as `List Char` where character-level transforms
matter; byte buffers as `List Nat` (one entry per byte); JavaScript
numbers in the capture geometry as `ℚ` (the arithmetic there is exact on
halves); time as `Nat` milliseconds.
-/

namespace MtgLookup

/-! ### Name Normalizer — `cleanCardName` (src/sam-backend/src/index.js)

`cleanCardName(text)`:
`if (!text) return '';`
`return text.trim().replace(/\s+/g, ' ').replace(/[^a-zA-Z0-9\s\-']/g, '').substring(0, 50);`
-/

/-- The whitespace characters matched by JavaScript's `\s` class, which is
also the set removed by `String.prototype.trim` (ECMAScript WhiteSpace and
LineTerminator code points). -/
def isJsWhitespace (c : Char) : Bool :=
  c == ' ' || c == '\t' || c == '\n' || c == '\x0b' || c == '\x0c' ||
  c == '\r' || c == ' ' || c == ' ' ||
  (decide (' ' ≤ c) && decide (c ≤ ' ')) ||
  c == ' ' || c == ' ' || c == ' ' || c == ' ' ||
  c == '　' || c == '﻿'

/-- `String.prototype.trim`: remove leading and trailing whitespace. -/
def trimJs (l : List Char) : List Char :=
  ((l.dropWhile isJsWhitespace).reverse.dropWhile isJsWhitespace).reverse

/-- `replace(/\s+/g, ' ')`: every maximal run of whitespace characters is
replaced by a single `' '` (the run's last whitespace character emits the
space; earlier ones are skipped because another whitespace follows). -/
def collapseWs : List Char → List Char
  | [] => []
  | c :: rest =>
    if isJsWhitespace c then
      match rest with
      | [] => [' ']
      | d :: _ => if isJsWhitespace d then collapseWs rest else ' ' :: collapseWs rest
    else c :: collapseWs rest

/-- The character class kept by `replace(/[^a-zA-Z0-9\s\-']/g, '')`:
ASCII letters, ASCII digits, any `\s` whitespace, hyphen, apostrophe. -/
def isKeptChar (c : Char) : Bool :=
  (decide ('a' ≤ c) && decide (c ≤ 'z')) ||
  (decide ('A' ≤ c) && decide (c ≤ 'Z')) ||
  (decide ('0' ≤ c) && decide (c ≤ '9')) ||
  isJsWhitespace c || c == '-' || c == '\''

/-- `cleanCardName` from src/sam-backend/src/index.js.  The JavaScript falsy
check `if (!text) return ''` fires exactly on the empty string here. -/
def cleanCardName (text : List Char) : List Char :=
  if text.isEmpty then []
  else List.take 50 (List.filter isKeptChar (collapseWs (trimJs text)))

/-- The spec's allowed output alphabet for a `NormalizedName`:
letters, digits, space, hyphen, apostrophe. -/
def isNameChar (c : Char) : Bool :=
  (decide ('a' ≤ c) && decide (c ≤ 'z')) ||
  (decide ('A' ≤ c) && decide (c ≤ 'Z')) ||
  (decide ('0' ≤ c) && decide (c ≤ '9')) ||
  c == ' ' || c == '-' || c == '\''

theorem collapseWs_singleton (a : Char) :
    collapseWs [a] = if isJsWhitespace a then [' '] else [a] := rfl

theorem collapseWs_cons_cons (a d : Char) (r : List Char) :
    collapseWs (a :: d :: r) =
      if isJsWhitespace a then
        (if isJsWhitespace d then collapseWs (d :: r) else ' ' :: collapseWs (d :: r))
      else a :: collapseWs (d :: r) := rfl

/-- Characters of `collapseWs l` are either the inserted `' '` or characters
of `l`. -/
theorem mem_collapseWs : ∀ {l : List Char} {c : Char},
    c ∈ collapseWs l → c = ' ' ∨ c ∈ l := by
  intro l
  induction l with
  | nil => intro c h; simp [collapseWs] at h
  | cons a rest ih =>
    intro c h
    cases rest with
    | nil =>
      rw [collapseWs_singleton] at h
      by_cases ha : isJsWhitespace a = true
      · rw [if_pos ha] at h
        simp only [List.mem_singleton] at h
        exact Or.inl h
      · rw [if_neg ha] at h
        exact Or.inr h
    | cons d r =>
      rw [collapseWs_cons_cons] at h
      by_cases ha : isJsWhitespace a = true
      · rw [if_pos ha] at h
        by_cases hd : isJsWhitespace d = true
        · rw [if_pos hd] at h
          exact (ih h).imp id (List.mem_cons_of_mem a)
        · rw [if_neg hd] at h
          rcases List.mem_cons.mp h with h1 | h1
          · exact Or.inl h1
          · exact (ih h1).imp id (List.mem_cons_of_mem a)
      · rw [if_neg ha] at h
        rcases List.mem_cons.mp h with h1 | h1
        · exact Or.inr (h1 ▸ List.mem_cons_self a _)
        · exact (ih h1).imp id (List.mem_cons_of_mem a)

/-- The only whitespace character `collapseWs` can leave in its output is
the single space it inserts. -/
theorem ws_mem_collapseWs : ∀ {l : List Char} {c : Char},
    c ∈ collapseWs l → isJsWhitespace c = true → c = ' ' := by
  intro l
  induction l with
  | nil => intro c h _; simp [collapseWs] at h
  | cons a rest ih =>
    intro c h hc
    cases rest with
    | nil =>
      rw [collapseWs_singleton] at h
      by_cases ha : isJsWhitespace a = true
      · rw [if_pos ha] at h
        simpa using h
      · rw [if_neg ha] at h
        simp only [List.mem_singleton] at h
        exact absurd (h ▸ hc) ha
    | cons d r =>
      rw [collapseWs_cons_cons] at h
      by_cases ha : isJsWhitespace a = true
      · rw [if_pos ha] at h
        by_cases hd : isJsWhitespace d = true
        · rw [if_pos hd] at h
          exact ih h hc
        · rw [if_neg hd] at h
          rcases List.mem_cons.mp h with h1 | h1
          · exact h1
          · exact ih h1 hc
      · rw [if_neg ha] at h
        rcases List.mem_cons.mp h with h1 | h1
        · exact absurd (h1 ▸ hc) ha
        · exact ih h1 hc

/-- `collapseWs` never lengthens a string. -/
theorem length_collapseWs_le : ∀ l : List Char, (collapseWs l).length ≤ l.length := by
  intro l
  induction l with
  | nil => simp [collapseWs]
  | cons a rest ih =>
    cases rest with
    | nil =>
      rw [collapseWs_singleton]
      by_cases ha : isJsWhitespace a = true
      · rw [if_pos ha]; simp
      · rw [if_neg ha]
    | cons d r =>
      rw [collapseWs_cons_cons]
      by_cases ha : isJsWhitespace a = true
      · rw [if_pos ha]
        by_cases hd : isJsWhitespace d = true
        · rw [if_pos hd]
          exact le_trans ih (by simp)
        · rw [if_neg hd]
          simpa using Nat.succ_le_succ ih
      · rw [if_neg ha]
        simpa using Nat.succ_le_succ ih

/-- `trimJs` only removes characters. -/
theorem mem_trimJs {l : List Char} {c : Char} (h : c ∈ trimJs l) : c ∈ l := by
  unfold trimJs at h
  rw [List.mem_reverse] at h
  have h1 := (List.dropWhile_sublist (l := (l.dropWhile isJsWhitespace).reverse)
    (p := isJsWhitespace)).mem h
  rw [List.mem_reverse] at h1
  exact (List.dropWhile_sublist (l := l) (p := isJsWhitespace)).mem h1

/-- `trimJs` never lengthens a string. -/
theorem length_trimJs_le (l : List Char) : (trimJs l).length ≤ l.length := by
  unfold trimJs
  calc ((l.dropWhile isJsWhitespace).reverse.dropWhile isJsWhitespace).reverse.length
      = ((l.dropWhile isJsWhitespace).reverse.dropWhile isJsWhitespace).length := by
        rw [List.length_reverse]
    _ ≤ (l.dropWhile isJsWhitespace).reverse.length :=
        (List.dropWhile_sublist _).length_le
    _ = (l.dropWhile isJsWhitespace).length := by rw [List.length_reverse]
    _ ≤ l.length := (List.dropWhile_sublist _).length_le

theorem length_cleanCardName_le (text : List Char) :
    (cleanCardName text).length ≤ 50 := by
  unfold cleanCardName
  split
  · simp
  · rw [List.length_take]
    exact min_le_left _ _

theorem mem_cleanCardName_kept {text : List Char} {c : Char}
    (hc : c ∈ cleanCardName text) : isKeptChar c = true := by
  unfold cleanCardName at hc
  split at hc
  · simp at hc
  · exact (List.mem_filter.mp (List.take_subset 50 _ hc)).2

theorem mem_cleanCardName_collapsed {text : List Char} {c : Char}
    (hc : c ∈ cleanCardName text) : c ∈ collapseWs (trimJs text) := by
  unfold cleanCardName at hc
  split at hc
  · simp at hc
  · exact (List.mem_filter.mp (List.take_subset 50 _ hc)).1

/-- C4: every output of the Name Normalizer has length at most 50 and
contains only letters, digits, space, hyphen and apostrophe; the function
is total (a plain Lean function with no failure path) and the empty input
yields the empty output. -/
theorem cleanCardName_bounded_and_clean (text : List Char) :
    (cleanCardName text).length ≤ 50 ∧
    (∀ c ∈ cleanCardName text, isNameChar c = true) ∧
    cleanCardName [] = [] := by
  refine ⟨length_cleanCardName_le text, ?_, rfl⟩
  intro c hc
  have hkept := mem_cleanCardName_kept hc
  have hmem := mem_cleanCardName_collapsed hc
  have hsp : isJsWhitespace c = true → c = ' ' := fun hw => ws_mem_collapseWs hmem hw
  unfold isKeptChar at hkept
  simp only [Bool.or_eq_true, Bool.and_eq_true, decide_eq_true_eq, beq_iff_eq] at hkept
  unfold isNameChar
  simp only [Bool.or_eq_true, Bool.and_eq_true, decide_eq_true_eq, beq_iff_eq]
  tauto

/-- A list whose first character, when it exists, is not whitespace. -/
def LeadingNonWs (l : List Char) : Prop :=
  ∀ c, l.head? = some c → isJsWhitespace c = false

/-- A list whose last character, when it exists, is not whitespace. -/
def TrailingNonWs (l : List Char) : Prop :=
  ∀ c, l.getLast? = some c → isJsWhitespace c = false

/-- No two adjacent whitespace characters: every whitespace run has
length one. -/
def SingleSpaced (l : List Char) : Prop :=
  List.Chain' (fun a b => isJsWhitespace a = false ∨ isJsWhitespace b = false) l

theorem collapseWs_eq_nil_iff : ∀ l : List Char, collapseWs l = [] ↔ l = [] := by
  intro l
  induction l with
  | nil => simp [collapseWs]
  | cons a rest ih =>
    cases rest with
    | nil =>
      rw [collapseWs_singleton]
      by_cases ha : isJsWhitespace a = true <;> simp [ha]
    | cons d r =>
      rw [collapseWs_cons_cons]
      by_cases ha : isJsWhitespace a = true
      · rw [if_pos ha]
        by_cases hd : isJsWhitespace d = true
        · rw [if_pos hd]
          simp [ih]
        · rw [if_neg hd]; simp
      · rw [if_neg ha]; simp

/-- The last character of `collapseWs l` is the last character of `l`,
rewritten to `' '` when it is whitespace. -/
theorem getLast?_collapseWs : ∀ l : List Char,
    (collapseWs l).getLast? =
      l.getLast?.map (fun c => if isJsWhitespace c then ' ' else c) := by
  intro l
  induction l with
  | nil => simp [collapseWs]
  | cons a rest ih =>
    cases rest with
    | nil =>
      rw [collapseWs_singleton]
      by_cases ha : isJsWhitespace a = true
      · rw [if_pos ha]; simp [ha]
      · rw [if_neg ha]; simp [ha]
    | cons d r =>
      have hne : collapseWs (d :: r) ≠ [] := by
        rw [ne_eq, collapseWs_eq_nil_iff]; simp
      obtain ⟨e, tl, htl⟩ := List.exists_cons_of_ne_nil hne
      rw [collapseWs_cons_cons]
      by_cases ha : isJsWhitespace a = true
      · rw [if_pos ha]
        by_cases hd : isJsWhitespace d = true
        · rw [if_pos hd, ih, List.getLast?_cons_cons]
        · rw [if_neg hd, htl, List.getLast?_cons_cons, ← htl, ih, List.getLast?_cons_cons]
      · rw [if_neg ha, htl, List.getLast?_cons_cons, ← htl, ih, List.getLast?_cons_cons]

/-- The output of `collapseWs` has no two adjacent whitespace characters. -/
theorem singleSpaced_collapseWs : ∀ l : List Char, SingleSpaced (collapseWs l) := by
  intro l
  induction l with
  | nil => simp [collapseWs, SingleSpaced]
  | cons a rest ih =>
    cases rest with
    | nil =>
      rw [SingleSpaced, collapseWs_singleton]
      by_cases ha : isJsWhitespace a = true
      · rw [if_pos ha]; simp
      · rw [if_neg ha]; simp
    | cons d r =>
      rw [SingleSpaced, collapseWs_cons_cons]
      by_cases ha : isJsWhitespace a = true
      · rw [if_pos ha]
        by_cases hd : isJsWhitespace d = true
        · rw [if_pos hd]; exact ih
        · rw [if_neg hd]
          rw [List.chain'_cons']
          refine ⟨?_, ih⟩
          intro y hy
          cases hcl : collapseWs (d :: r) with
          | nil => rw [hcl] at hy; simp at hy
          | cons e tl =>
            rw [hcl] at hy
            simp only [List.head?_cons, Option.mem_def, Option.some.injEq] at hy
            right
            have he : e = d := by
              cases r with
              | nil =>
                rw [collapseWs_singleton, if_neg hd] at hcl
                exact (List.cons.inj hcl).1.symm
              | cons d2 r2 =>
                rw [collapseWs_cons_cons, if_neg hd] at hcl
                exact (List.cons.inj hcl).1.symm
            rw [← hy, he]
            simpa using hd
      · rw [if_neg ha]
        rw [List.chain'_cons']
        exact ⟨fun y _ => Or.inl (by simpa using ha), ih⟩

/-- `collapseWs` fixes a list with no adjacent whitespace pair whose
whitespace characters are all the plain space. -/
theorem collapseWs_eq_self : ∀ l : List Char, SingleSpaced l →
    (∀ c ∈ l, isJsWhitespace c = true → c = ' ') → collapseWs l = l := by
  intro l
  induction l with
  | nil => intro _ _; rfl
  | cons a rest ih =>
    intro hch hsp
    cases rest with
    | nil =>
      rw [collapseWs_singleton]
      by_cases ha : isJsWhitespace a = true
      · rw [if_pos ha, hsp a (List.mem_singleton_self a) ha]
      · rw [if_neg ha]
    | cons d r =>
      rw [SingleSpaced, List.chain'_cons] at hch
      obtain ⟨had, hch'⟩ := hch
      have ihr : collapseWs (d :: r) = d :: r :=
        ih hch' (fun c hc hw => hsp c (List.mem_cons_of_mem a hc) hw)
      rw [collapseWs_cons_cons]
      by_cases ha : isJsWhitespace a = true
      · have hd : isJsWhitespace d = false := by
          rcases had with h | h
          · rw [ha] at h; cases h
          · exact h
        rw [if_pos ha, if_neg (by rw [hd]; simp), ihr,
          hsp a (List.mem_cons_self a _) ha]
      · rw [if_neg ha, ihr]

theorem dropWhile_eq_self_of_leading {p : Char → Bool} : ∀ {l : List Char},
    (∀ c, l.head? = some c → p c = false) → l.dropWhile p = l := by
  intro l h
  cases l with
  | nil => rfl
  | cons a r =>
    rw [List.dropWhile_cons, if_neg]
    rw [h a rfl]
    simp

theorem head?_dropWhile_non {p : Char → Bool} : ∀ (l : List Char) (c : Char),
    (l.dropWhile p).head? = some c → p c = false := by
  intro l
  induction l with
  | nil => intro c h; simp at h
  | cons a r ih =>
    intro c h
    rw [List.dropWhile_cons] at h
    by_cases hp : p a = true
    · rw [if_pos hp] at h
      exact ih c h
    · rw [if_neg hp] at h
      simp only [List.head?_cons, Option.some.injEq] at h
      rw [← h]
      simpa using hp

theorem getLast?_dropWhile_of_ne_nil {p : Char → Bool} : ∀ (l : List Char),
    l.dropWhile p ≠ [] → (l.dropWhile p).getLast? = l.getLast? := by
  intro l
  induction l with
  | nil => intro h; simp at h
  | cons a r ih =>
    intro h
    rw [List.dropWhile_cons] at h ⊢
    by_cases hp : p a = true
    · rw [if_pos hp] at h ⊢
      have hr : r ≠ [] := by
        intro hnil
        rw [hnil] at h
        simp at h
      obtain ⟨e, tl, htl⟩ := List.exists_cons_of_ne_nil hr
      rw [ih h, htl, List.getLast?_cons_cons]
    · rw [if_neg hp]

/-- `trimJs` fixes a list with no leading and no trailing whitespace. -/
theorem trimJs_eq_self (l : List Char) (h1 : LeadingNonWs l) (h2 : TrailingNonWs l) :
    trimJs l = l := by
  unfold trimJs
  rw [dropWhile_eq_self_of_leading h1]
  rw [dropWhile_eq_self_of_leading (fun c hc => h2 c (l.head?_reverse ▸ hc))]
  exact l.reverse_reverse

theorem leadingNonWs_trimJs (l : List Char) : LeadingNonWs (trimJs l) := by
  intro c hc
  unfold trimJs at hc
  rw [List.head?_reverse] at hc
  by_cases hnil : ((l.dropWhile isJsWhitespace).reverse.dropWhile isJsWhitespace) = []
  · rw [hnil] at hc; simp at hc
  · rw [getLast?_dropWhile_of_ne_nil _ hnil, List.getLast?_reverse] at hc
    exact head?_dropWhile_non l c hc

theorem trailingNonWs_trimJs (l : List Char) : TrailingNonWs (trimJs l) := by
  intro c hc
  unfold trimJs at hc
  rw [List.getLast?_reverse] at hc
  exact head?_dropWhile_non _ c hc

theorem leadingNonWs_collapseWs (l : List Char) (h : LeadingNonWs l) :
    LeadingNonWs (collapseWs l) := by
  intro c hc
  cases l with
  | nil => simp [collapseWs] at hc
  | cons a r =>
    have ha : isJsWhitespace a = false := h a rfl
    cases r with
    | nil =>
      rw [collapseWs_singleton, if_neg (by rw [ha]; simp)] at hc
      simp only [List.head?_cons, Option.some.injEq] at hc
      rw [← hc]; exact ha
    | cons d r2 =>
      rw [collapseWs_cons_cons, if_neg (by rw [ha]; simp)] at hc
      simp only [List.head?_cons, Option.some.injEq] at hc
      rw [← hc]; exact ha

theorem trailingNonWs_collapseWs (l : List Char) (h : TrailingNonWs l) :
    TrailingNonWs (collapseWs l) := by
  intro c hc
  rw [getLast?_collapseWs] at hc
  cases hl : l.getLast? with
  | none => rw [hl] at hc; simp at hc
  | some c0 =>
    have h0 : isJsWhitespace c0 = false := h c0 hl
    rw [hl] at hc
    simp only [h0, Option.map_some', Option.some.injEq, Bool.false_eq_true,
      if_false] at hc
    rw [← hc]; exact h0

/-- On an input of allowed characters and bounded length, `cleanCardName`
is trim-then-collapse: the filter and the truncation do nothing. -/
theorem cleanCardName_of_kept (y : List Char)
    (hkept : ∀ c ∈ y, isKeptChar c = true) (hlen : y.length ≤ 50) :
    cleanCardName y = collapseWs (trimJs y) := by
  unfold cleanCardName
  split
  · rename_i hy
    rw [List.isEmpty_iff] at hy
    rw [hy]
    rfl
  · rw [List.filter_eq_self.mpr, List.take_of_length_le]
    · exact le_trans (length_collapseWs_le _) (le_trans (length_trimJs_le _) hlen)
    · intro c hc
      rcases mem_collapseWs hc with h | h
      · rw [h]; rfl
      · exact hkept c (mem_trimJs h)

/-- `cleanCardName` fixes any list in canonical form: allowed characters,
whitespace only as single interior plain spaces, length at most 50. -/
theorem cleanCardName_fixed (z : List Char)
    (hkept : ∀ c ∈ z, isKeptChar c = true) (hlen : z.length ≤ 50)
    (hlead : LeadingNonWs z) (htrail : TrailingNonWs z)
    (hsingle : SingleSpaced z) (hsp : ∀ c ∈ z, isJsWhitespace c = true → c = ' ') :
    cleanCardName z = z := by
  rw [cleanCardName_of_kept z hkept hlen, trimJs_eq_self z hlead htrail,
    collapseWs_eq_self z hsingle hsp]

/-- C5 counterexample: `cleanCardName` is not idempotent.  On
`"a . b"` the whitespace collapse runs before the character strip, so
stripping `'.'` leaves the double space `"a  b"`; a second application
collapses it to `"a b"`. -/
theorem cleanCardName_not_idempotent :
    cleanCardName (cleanCardName ('a' :: ' ' :: '.' :: ' ' :: 'b' :: [])) ≠
      cleanCardName ('a' :: ' ' :: '.' :: ' ' :: 'b' :: []) := by decide

/-- C5 amended: `cleanCardName` is not idempotent on all inputs (the
character strip can merge two whitespace runs), but it is idempotent from
the second application on: `clean ∘ clean` is a projection, and every
twice-cleaned output is in canonical form — no leading whitespace, no
trailing whitespace, and no two adjacent whitespace characters. -/
theorem cleanCardName_twice_canonical (text : List Char) :
    cleanCardName (cleanCardName (cleanCardName text)) =
      cleanCardName (cleanCardName text) ∧
    LeadingNonWs (cleanCardName (cleanCardName text)) ∧
    TrailingNonWs (cleanCardName (cleanCardName text)) ∧
    SingleSpaced (cleanCardName (cleanCardName text)) := by
  set y := cleanCardName text with hy
  have hykept : ∀ c ∈ y, isKeptChar c = true := fun c hc => mem_cleanCardName_kept hc
  have hylen : y.length ≤ 50 := length_cleanCardName_le text
  have hz : cleanCardName y = collapseWs (trimJs y) := cleanCardName_of_kept y hykept hylen
  have hzkept : ∀ c ∈ cleanCardName y, isKeptChar c = true :=
    fun c hc => mem_cleanCardName_kept hc
  have hzlen : (cleanCardName y).length ≤ 50 := length_cleanCardName_le y
  have hzlead : LeadingNonWs (cleanCardName y) := by
    rw [hz]
    exact leadingNonWs_collapseWs _ (leadingNonWs_trimJs y)
  have hztrail : TrailingNonWs (cleanCardName y) := by
    rw [hz]
    exact trailingNonWs_collapseWs _ (trailingNonWs_trimJs y)
  have hzsingle : SingleSpaced (cleanCardName y) := by
    rw [hz]
    exact singleSpaced_collapseWs _
  have hzsp : ∀ c ∈ cleanCardName y, isJsWhitespace c = true → c = ' ' := by
    intro c hc hw
    exact ws_mem_collapseWs (hz ▸ hc) hw
  exact ⟨cleanCardName_fixed _ hzkept hzlen hzlead hztrail hzsingle hzsp,
    hzlead, hztrail, hzsingle⟩

/-! ### Image Validator — `validateImage` (src/sam-backend/src/index.js) -/

def EXPECTED_WIDTH : Nat := 250
def EXPECTED_HEIGHT : Nat := 120

/-- `buffer.readUInt32BE(offset)`: big-endian 32-bit read.  The callers
below only use it at offsets guarded by `buffer.length < 24`, so the
default-`0` reads past the end are never exercised there. -/
def readUInt32BE (buffer : List Nat) (offset : Nat) : Nat :=
  buffer.getD offset 0 * 2 ^ 24 + buffer.getD (offset + 1) 0 * 2 ^ 16 +
  buffer.getD (offset + 2) 0 * 2 ^ 8 + buffer.getD (offset + 3) 0

/-- `validateImage` from src/sam-backend/src/index.js, on the decoded byte
buffer (`Buffer.from(base64Image, 'base64')` decodes leniently; any input
on which decoding would throw is caught and yields `false`, so the
function as modelled is total on byte buffers). -/
def validateImage (buffer : List Nat) : Bool :=
  if buffer.length < 24 || buffer.getD 0 0 != 0x89 || buffer.getD 1 0 != 0x50 ||
      buffer.getD 2 0 != 0x4E || buffer.getD 3 0 != 0x47 then
    false
  else
    readUInt32BE buffer 16 == EXPECTED_WIDTH && readUInt32BE buffer 20 == EXPECTED_HEIGHT

/-- Spec-side description of a payload the Image Validator should accept:
long enough to carry the header, the four magic-signature bytes the code
compares against the PNG signature, and the exact expected dimensions at
the fixed header offsets (width at byte 16, height at byte 20). -/
def IsPngWithExpectedDims (buffer : List Nat) : Prop :=
  24 ≤ buffer.length ∧
  buffer.getD 0 0 = 0x89 ∧ buffer.getD 1 0 = 0x50 ∧
  buffer.getD 2 0 = 0x4E ∧ buffer.getD 3 0 = 0x47 ∧
  readUInt32BE buffer 16 = EXPECTED_WIDTH ∧ readUInt32BE buffer 20 = EXPECTED_HEIGHT

/-! ### Card Resolver rate limiter — `rateLimitScryfall` (src/sam-backend/src/index.js)

Module state `lastScryfallCall` starts at `0` and is threaded explicitly.
`setTimeout` is modelled as resuming exactly after the requested delay, and
the `Date.now()` re-read after the wait as the resume time, so
`rateLimitScryfall` returns the time at which the outbound call is issued,
which is also the new recorded `lastScryfallCall`. -/

def SCRYFALL_RATE_LIMIT_MS : Nat := 100

/-- One invocation of `rateLimitScryfall`: with recorded timestamp
`lastScryfallCall` and current time `now`, if the elapsed time is below the
floor the call suspends for the remainder and is issued at
`lastScryfallCall + SCRYFALL_RATE_LIMIT_MS`; otherwise it is issued at
`now`.  (In JavaScript a negative `elapsed` also takes the wait branch and
also resumes at `lastScryfallCall + SCRYFALL_RATE_LIMIT_MS`; truncated
`Nat` subtraction selects the same branch.) -/
def rateLimitScryfall (lastScryfallCall now : Nat) : Nat :=
  if now - lastScryfallCall < SCRYFALL_RATE_LIMIT_MS then
    lastScryfallCall + SCRYFALL_RATE_LIMIT_MS
  else now

/-- The sequence of issue times of the outbound Scryfall calls, given the
arrival times of successive `lookupCard` invocations (each invocation runs
`rateLimitScryfall` to completion before the next starts, as in the
single-threaded event model) and the recorded timestamp. -/
def scryfallCallTimes : List Nat → Nat → List Nat
  | [], _ => []
  | now :: rest, last =>
    rateLimitScryfall last now :: scryfallCallTimes rest (rateLimitScryfall last now)

/-- Each issued call is at least the floor interval after the recorded
timestamp it observed — with no assumption relating `now` and `last`. -/
theorem rateLimitScryfall_lower_bound (last now : Nat) :
    last + SCRYFALL_RATE_LIMIT_MS ≤ rateLimitScryfall last now := by
  unfold rateLimitScryfall SCRYFALL_RATE_LIMIT_MS
  split <;> omega

/-- Every call time in a trace is at least the floor past the starting
timestamp. -/
theorem le_of_mem_scryfallCallTimes :
    ∀ (arrivals : List Nat) (last b : Nat), b ∈ scryfallCallTimes arrivals last →
      last + SCRYFALL_RATE_LIMIT_MS ≤ b := by
  intro arrivals
  induction arrivals with
  | nil => intro last b hb; simp [scryfallCallTimes] at hb
  | cons now rest ih =>
    intro last b hb
    simp only [scryfallCallTimes, List.mem_cons] at hb
    rcases hb with hb | hb
    · exact hb ▸ rateLimitScryfall_lower_bound last now
    · have h1 := rateLimitScryfall_lower_bound last now
      have h2 := ih (rateLimitScryfall last now) b hb
      omega

/-- C1: within one process, no two outbound calls to the card-database
service are issued less than `SCRYFALL_RATE_LIMIT_MS = 100` ms apart: in
every trace of sequential lookup invocations — including back-to-back
pipeline runs, which share the one module-level timestamp — any two
recorded call times are at least 100 ms apart (in order). -/
theorem scryfall_calls_at_least_floor_apart (arrivals : List Nat) (last : Nat) :
    List.Pairwise (fun a b => a + SCRYFALL_RATE_LIMIT_MS ≤ b)
      (scryfallCallTimes arrivals last) := by
  induction arrivals generalizing last with
  | nil => simp [scryfallCallTimes]
  | cons now rest ih =>
    simp only [scryfallCallTimes]
    refine List.Pairwise.cons ?_ (ih _)
    intro b hb
    have := le_of_mem_scryfallCallTimes rest (rateLimitScryfall last now) b hb
    omega

/-- C2: the Image Validator accepts a payload exactly when the buffer is
at least the minimum header length, the magic signature bytes match, and
the embedded width and height equal the expected 250×120; every other
buffer — too short, wrong signature, or wrong dimensions — yields `false`.
The function is total (any decode exception in the source is caught and
mapped to `false`), so no input raises. -/
theorem validateImage_true_iff (buffer : List Nat) :
    validateImage buffer = true ↔ IsPngWithExpectedDims buffer := by
  unfold validateImage IsPngWithExpectedDims
  split
  · rename_i h
    simp only [Bool.or_eq_true, decide_eq_true_eq, bne_iff_ne, ne_eq] at h
    simp only [Bool.false_eq_true, false_iff]
    omega
  · rename_i h
    simp only [Bool.or_eq_true, decide_eq_true_eq, bne_iff_ne, ne_eq] at h
    simp only [Bool.and_eq_true, beq_iff_eq]
    constructor
    · intro hx
      omega
    · intro hx
      omega

end MtgLookup

namespace MtgLookup

/-! ### Card Resolver result merge — `lookupCard` (src/sam-backend/src/index.js)

JSON values from the Scryfall response.  `Option` models presence of a
field: `none` is an absent (or JavaScript-falsy, for the string-valued
image URLs) field. -/

structure ImageUris where
  normal : Option String
  large : Option String
deriving DecidableEq

structure CardFace where
  image_uris : Option ImageUris
  oracle_text : Option String
  mana_cost : Option String
deriving DecidableEq

structure ScryfallCard where
  name : String
  image_uris : Option ImageUris
  card_faces : Option (List CardFace)
  set : String
  set_name : String
  type_line : String
  oracle_text : Option String
  mana_cost : Option String
  rarity : String
deriving DecidableEq

/-- The `result` object built by `lookupCard`.  `backAssigned` records
whether the line `result.backImageUrl = ...` ran (the own property exists
on the object), `backImageUrl` the value it assigned (`none` for
JavaScript `undefined`). -/
structure CardRecord where
  name : String
  imageUrl : Option String
  set : String
  setName : String
  type : String
  oracleText : Option String
  manaCost : Option String
  rarity : String
  backAssigned : Bool
  backImageUrl : Option String
deriving DecidableEq

/-- The result-building part of `lookupCard`:
`isDoubleFaced = c.card_faces && !c.image_uris`,
`imageUris = c.image_uris || c.card_faces?.[0]?.image_uris`, each URL
falling back from the `normal` to the `large` variant, and the back face
added only when `isDoubleFaced && c.card_faces[1]?.image_uris`. -/
def buildCardRecord (c : ScryfallCard) : CardRecord :=
  let isDoubleFaced := c.card_faces.isSome && c.image_uris.isNone
  let imageUris : Option ImageUris :=
    c.image_uris <|> ((c.card_faces.bind (fun fs => fs[0]?)).bind (fun f => f.image_uris))
  let face1uris : Option ImageUris :=
    (c.card_faces.bind (fun fs => fs[1]?)).bind (fun f => f.image_uris)
  { name := c.name
    imageUrl := imageUris.bind (fun u => u.normal <|> u.large)
    set := c.set
    setName := c.set_name
    type := c.type_line
    oracleText := c.oracle_text <|>
      ((c.card_faces.bind (fun fs => fs[0]?)).bind (fun f => f.oracle_text))
    manaCost := c.mana_cost <|>
      ((c.card_faces.bind (fun fs => fs[0]?)).bind (fun f => f.mana_cost))
    rarity := c.rarity
    backAssigned := isDoubleFaced && face1uris.isSome
    backImageUrl :=
      if isDoubleFaced && face1uris.isSome then face1uris.bind (fun u => u.normal <|> u.large)
      else none }

/-- Spec-side reading of "the source record has two faces with independent
face images": the faces' images are independent of any shared top-level
image (the record carries none at top level) and a second face carries its
own image data. -/
def HasTwoIndependentFaceImages (c : ScryfallCard) : Prop :=
  c.image_uris = none ∧
  ∃ fs f1, c.card_faces = some fs ∧ fs[1]? = some f1 ∧ f1.image_uris.isSome = true

/-- Spec-side reading of "the front face's own image URL (falling back
from the normal to the large size variant)": the top-level image of a
single-faced record, or the first face's own image otherwise. -/
def frontFaceImageUrl (c : ScryfallCard) : Option String :=
  (c.image_uris <|> ((c.card_faces.bind (fun fs => fs[0]?)).bind (fun f => f.image_uris))).bind
    (fun u => u.normal <|> u.large)

/-- C6: the produced record's back-face image field is assigned if and only
if the source record has two faces with independent face images; a
single-faced source record (no `card_faces`) never has it; and when it is
not assigned the front face's own image URL, with the normal-to-large
fallback, is used. -/
theorem backImageUrl_iff_two_independent_faces (c : ScryfallCard) :
    ((buildCardRecord c).backAssigned = true ↔ HasTwoIndependentFaceImages c) ∧
    (c.card_faces = none →
      (buildCardRecord c).backAssigned = false ∧ (buildCardRecord c).backImageUrl = none) ∧
    ((buildCardRecord c).backAssigned = false →
      (buildCardRecord c).imageUrl = frontFaceImageUrl c) := by
  refine ⟨?_, ?_, ?_⟩
  · cases hfs : c.card_faces with
    | none =>
      simp [buildCardRecord, HasTwoIndependentFaceImages, hfs]
    | some fs =>
      cases himg : c.image_uris with
      | some u =>
        simp [buildCardRecord, HasTwoIndependentFaceImages, hfs, himg]
      | none =>
        cases hf1 : fs[1]? with
        | none =>
          simp [buildCardRecord, HasTwoIndependentFaceImages, hfs, himg, hf1]
        | some f1 =>
          simp [buildCardRecord, HasTwoIndependentFaceImages, hfs, himg, hf1]
  · intro hfs
    constructor
    · simp [buildCardRecord, hfs]
    · simp [buildCardRecord, hfs]
  · intro _
    rfl

end MtgLookup

namespace MtgLookup

/-! ### Lambda handler (src/sam-backend/src/index.js)

The handler is embedded as a function of the parsed request together with
oracles for the two external HTTP calls (the Gemini OCR request and the
Scryfall lookup).  `body.image` is carried as its decoded byte buffer
(`Buffer.from(..., 'base64')` decodes leniently and the data-URL marker is
stripped before decoding).  The `try/catch` around the handler body is
modelled by routing each stage's `Except.error` through `catchClause`,
the `catch (e)` block.  The result records which external calls were
issued, for the ordering claims. -/

/-- `String.prototype.includes` on character lists: `startsWithChars pat s`
is "`s` starts with `pat`". -/
def startsWithChars : List Char → List Char → Bool
  | [], _ => true
  | _ :: _, [] => false
  | p :: ps, c :: cs => p == c && startsWithChars ps cs

/-- `s.includes(pat)`: `pat` occurs contiguously somewhere in `s`. -/
def includesChars : List Char → List Char → Bool
  | [], pat => pat.isEmpty
  | c :: rest, pat => startsWithChars pat (c :: rest) || includesChars rest pat

/-- The parsed request: which endpoint the path selects, and the `name`
and `image` fields of the JSON body (`none` = absent). -/
structure LambdaEvent where
  byName : Bool
  name : Option String
  image : Option (List Nat)
deriving DecidableEq

/-- Outcome of the Gemini HTTP request: a non-2xx status with its error
body, or a success whose `joined` is the concatenation of the returned
text parts (`none` when the candidates chain is absent). -/
inductive GeminiResponse where
  | httpError (status : Nat) (body : String)
  | success (joined : Option String)
deriving DecidableEq

/-- Outcome of the Scryfall HTTP request. -/
inductive ScryfallResponse where
  | httpError (status : Nat)
  | success (c : ScryfallCard)
deriving DecidableEq

/-- The handler's HTTP response (status plus the JSON body fields that can
occur) and which external calls were issued during the run. -/
structure HandlerResult where
  statusCode : Nat
  found : Option Bool
  card : Option CardRecord
  detectedName : Option String
  error : Option String
  ocrCalled : Bool
  scryfallCalled : Bool
deriving DecidableEq

/-- `performOCR` from src/sam-backend/src/index.js, as a function of the
Gemini response: status mapping for non-2xx, then
`(!text || text === 'NONE') ? null : text` on the trimmed joined text. -/
def performOCR (g : GeminiResponse) : Except String (Option String) :=
  match g with
  | .httpError status body =>
    if status = 401 || status = 403 then .error "Invalid Gemini API key"
    else if status = 429 then .error "Rate limit exceeded"
    else .error ("Gemini API error: " ++ toString status ++ " - " ++ body)
  | .success joined =>
    match joined with
    | none => .ok none
    | some t =>
      let text := trimJs t.toList
      if text.isEmpty || text = "NONE".toList then .ok none
      else .ok (some (String.mk text))

/-- `lookupCard` from src/sam-backend/src/index.js, as a function of the
Scryfall response: 404 throws `Card not found: "<name>"`, any other
non-2xx throws `Scryfall API error: <status>`, success builds the record.
(Its `await rateLimitScryfall()` first line is the separately modelled
rate limiter.) -/
def lookupCard (cardName : String) (s : ScryfallResponse) : Except String CardRecord :=
  match s with
  | .httpError status =>
    if status = 404 then .error ("Card not found: \"" ++ cardName ++ "\"")
    else .error ("Scryfall API error: " ++ toString status)
  | .success c => .ok (buildCardRecord c)

/-- The handler's `catch (e)` block: an error whose message includes
`'not found'` becomes HTTP 200 `{found: false}`; any other error becomes
HTTP 500 with the message. -/
def catchClause (e : String) (ocrCalled scryfallCalled : Bool) : HandlerResult :=
  if includesChars e.toList "not found".toList then
    { statusCode := 200, found := some false, card := none, detectedName := none,
      error := none, ocrCalled := ocrCalled, scryfallCalled := scryfallCalled }
  else
    { statusCode := 500, found := none, card := none, detectedName := none,
      error := some e, ocrCalled := ocrCalled, scryfallCalled := scryfallCalled }

/-- A 200 `{found: false}` response. -/
def foundFalseResult (ocrCalled scryfallCalled : Bool) : HandlerResult :=
  { statusCode := 200, found := some false, card := none, detectedName := none,
    error := none, ocrCalled := ocrCalled, scryfallCalled := scryfallCalled }

/-- The exported `handler` from src/sam-backend/src/index.js. -/
def handler (ev : LambdaEvent) (apiKey : Option String)
    (gemini : GeminiResponse) (scryfall : ScryfallResponse) : HandlerResult :=
  if ev.byName then
    match ev.name with
    | none =>
      { statusCode := 400, found := none, card := none, detectedName := none,
        error := some "Bad request", ocrCalled := false, scryfallCalled := false }
    | some n =>
      if n = "" then
        { statusCode := 400, found := none, card := none, detectedName := none,
          error := some "Bad request", ocrCalled := false, scryfallCalled := false }
      else
        let cardName := String.mk (cleanCardName n.toList)
        if cardName = "" then foundFalseResult false false
        else
          match lookupCard cardName scryfall with
          | .ok card =>
            { statusCode := 200, found := some true, card := some card,
              detectedName := none, error := none, ocrCalled := false,
              scryfallCalled := true }
          | .error e => catchClause e false true
  else
    match ev.image with
    | none =>
      { statusCode := 400, found := none, card := none, detectedName := none,
        error := some "Missing image", ocrCalled := false, scryfallCalled := false }
    | some img =>
      if validateImage img = false then
        { statusCode := 400, found := none, card := none, detectedName := none,
          error := some "Invalid image", ocrCalled := false, scryfallCalled := false }
      else
        match apiKey with
        | none =>
          { statusCode := 500, found := none, card := none, detectedName := none,
            error := some "Server config error", ocrCalled := false,
            scryfallCalled := false }
        | some key =>
          if key = "" then
            { statusCode := 500, found := none, card := none, detectedName := none,
              error := some "Server config error", ocrCalled := false,
              scryfallCalled := false }
          else
            match performOCR gemini with
            | .error e => catchClause e true false
            | .ok none => foundFalseResult true false
            | .ok (some text) =>
              let cardName := String.mk (cleanCardName text.toList)
              if cardName = "" then foundFalseResult true false
              else
                match lookupCard cardName scryfall with
                | .ok card =>
                  { statusCode := 200, found := some true, card := some card,
                    detectedName := some cardName, error := none,
                    ocrCalled := true, scryfallCalled := true }
                | .error e => catchClause e true true

end MtgLookup

namespace MtgLookup

/-- A concrete 24-byte buffer that passes `validateImage`: PNG signature,
IHDR chunk header, width 250 at offset 16, height 120 at offset 20. -/
def validPngBytes : List Nat :=
  [0x89, 0x50, 0x4E, 0x47, 0x0D, 0x0A, 0x1A, 0x0A,
   0, 0, 0, 13, 0x49, 0x48, 0x44, 0x52,
   0, 0, 0, 250, 0, 0, 0, 120]

/-- C3: a request whose image payload fails validation is answered with
the 400 `Invalid image` error outcome, and neither the OCR service nor
the card-database service is called — the OCR step is unreachable when
validation returns false, whatever the oracles would have answered. -/
theorem handler_invalid_image_no_ocr (img : List Nat) (apiKey : Option String)
    (gemini : GeminiResponse) (scryfall : ScryfallResponse)
    (hv : validateImage img = false) :
    handler { byName := false, name := none, image := some img } apiKey gemini scryfall =
      { statusCode := 400, found := none, card := none, detectedName := none,
        error := some "Invalid image", ocrCalled := false, scryfallCalled := false } := by
  unfold handler
  simp [hv]

/-- Witness for C3 at a concrete input: the empty payload fails validation
and the handler returns the 400 error without calling OCR. -/
theorem handler_invalid_image_no_ocr_witness :
    handler { byName := false, name := none, image := some [] } none
        (.success none) (.httpError 404) =
      { statusCode := 400, found := none, card := none, detectedName := none,
        error := some "Invalid image", ocrCalled := false, scryfallCalled := false } :=
  handler_invalid_image_no_ocr [] none (.success none) (.httpError 404) (by decide)

/-- The 404 message thrown by `lookupCard` contains `'not found'` for every
card name. -/
theorem card_not_found_message_includes (cardName : String) :
    includesChars ("Card not found: \"" ++ cardName ++ "\"").toList "not found".toList
      = true := by
  have h : ("Card not found: \"" ++ cardName ++ "\"").toList =
      'C' :: 'a' :: 'r' :: 'd' :: ' ' :: 'n' :: 'o' :: 't' :: ' ' :: 'f' :: 'o' :: 'u' ::
        'n' :: 'd' :: ':' :: ' ' :: '"' :: (cardName.toList ++ ['"']) := rfl
  rw [h]
  simp [includesChars, startsWithChars]

/-- C10: every error thrown inside the handler is routed through the same
`catch` clause — whether the OCR stage or the card-lookup stage raised it —
and that clause turns any message containing `'not found'` into a 200
`{found: false}` response indistinguishable from a negative lookup, and
every other message into a 500 response carrying it. -/
theorem handler_ocr_error_eq (img : List Nat) (key e : String)
    (gemini : GeminiResponse) (scryfall : ScryfallResponse)
    (hv : validateImage img = true) (hk : key ≠ "")
    (hocr : performOCR gemini = .error e) :
    handler { byName := false, name := none, image := some img } (some key)
      gemini scryfall = catchClause e true false := by
  unfold handler
  simp [hv, hk, hocr]

theorem handler_lookup_error_eq (img : List Nat) (key e text : String)
    (gemini : GeminiResponse) (scryfall : ScryfallResponse)
    (hv : validateImage img = true) (hk : key ≠ "")
    (hocr : performOCR gemini = .ok (some text))
    (hname : String.mk (cleanCardName text.toList) ≠ "")
    (hlook : lookupCard (String.mk (cleanCardName text.toList)) scryfall = .error e) :
    handler { byName := false, name := none, image := some img } (some key)
      gemini scryfall = catchClause e true true := by
  have hname' : String.mk (cleanCardName text.data) ≠ "" := hname
  have hlook' : lookupCard (String.mk (cleanCardName text.data)) scryfall =
      Except.error e := hlook
  unfold handler
  simp [hv, hk, hocr, hname', hlook']

theorem catchClause_of_not_found (e : String) (b1 b2 : Bool)
    (hinc : includesChars e.toList "not found".toList = true) :
    catchClause e b1 b2 =
      { statusCode := 200, found := some false, card := none, detectedName := none,
        error := none, ocrCalled := b1, scryfallCalled := b2 } := by
  unfold catchClause
  rw [if_pos hinc]

theorem catchClause_of_other (e : String) (b1 b2 : Bool)
    (hinc : includesChars e.toList "not found".toList = false) :
    catchClause e b1 b2 =
      { statusCode := 500, found := none, card := none, detectedName := none,
        error := some e, ocrCalled := b1, scryfallCalled := b2 } := by
  unfold catchClause
  rw [hinc]
  simp

theorem handler_routes_errors_by_not_found_substring
    (img : List Nat) (key e text : String)
    (gemini : GeminiResponse) (scryfall : ScryfallResponse) (b1 b2 : Bool)
    (hv : validateImage img = true) (hk : key ≠ "") :
    (performOCR gemini = .error e →
      handler { byName := false, name := none, image := some img } (some key)
          gemini scryfall = catchClause e true false) ∧
    (performOCR gemini = .ok (some text) →
      String.mk (cleanCardName text.toList) ≠ "" →
      lookupCard (String.mk (cleanCardName text.toList)) scryfall = .error e →
      handler { byName := false, name := none, image := some img } (some key)
          gemini scryfall = catchClause e true true) ∧
    (includesChars e.toList "not found".toList = true →
      catchClause e b1 b2 =
        { statusCode := 200, found := some false, card := none, detectedName := none,
          error := none, ocrCalled := b1, scryfallCalled := b2 }) ∧
    (includesChars e.toList "not found".toList = false →
      catchClause e b1 b2 =
        { statusCode := 500, found := none, card := none, detectedName := none,
          error := some e, ocrCalled := b1, scryfallCalled := b2 }) :=
  ⟨handler_ocr_error_eq img key e gemini scryfall hv hk,
   handler_lookup_error_eq img key e text gemini scryfall hv hk,
   catchClause_of_not_found e b1 b2,
   catchClause_of_other e b1 b2⟩

/-- Witness for C10 at concrete inputs: a Gemini service error whose body
happens to contain `'not found'` yields the same 200 `{found: false}`
response as a genuine negative card lookup. -/
theorem handler_routes_errors_by_not_found_substring_witness :
    handler { byName := false, name := none, image := some validPngBytes }
        (some "k") (.httpError 500 "resource not found") (.httpError 404) =
      { statusCode := 200, found := some false, card := none, detectedName := none,
        error := none, ocrCalled := true, scryfallCalled := false } := by
  have h := (handler_routes_errors_by_not_found_substring validPngBytes "k"
    "Gemini API error: 500 - resource not found" "" (.httpError 500 "resource not found")
    (.httpError 404) true false (by decide) (by decide)).1 rfl
  rw [h]
  have h2 := (handler_routes_errors_by_not_found_substring validPngBytes "k"
    "Gemini API error: 500 - resource not found" "" (.httpError 500 "resource not found")
    (.httpError 404) true false (by decide) (by decide)).2.2.1 (by decide)
  exact h2

end MtgLookup

namespace MtgLookup

/-! ### Content script (src/content.js) — overlay state and response handling

The overlay UI is modelled as a state, and the three events that change it:
a trigger (backtick press, `handleCardLookup` shows the loading spinner),
a dismissal (`dismissOverlay` via Escape, the close button or the
backdrop), and the arrival of the in-flight lookup's response (the
`.then`/`.catch` continuation of `performCardLookup`). -/

/-- What the content script receives from the service worker
(src/background.js `sendResponse`): `{success: true, ...data}` on a 2xx
backend response, `{success: false, error}` otherwise. -/
structure LookupResponse where
  success : Bool
  found : Bool
  card : Option CardRecord
  detectedName : Option String
  error : Option String
deriving DecidableEq

/-- src/background.js `lookupCardFromImage` + the message listener: a non-2xx
HTTP response throws `Lookup failed`, which is relayed as
`{success: false, error}`; a 2xx response's JSON body is spread into
`{success: true, ...}`. -/
def backgroundRelay (r : HandlerResult) : LookupResponse :=
  if r.statusCode = 200 then
    { success := true, found := r.found.getD false, card := r.card,
      detectedName := r.detectedName, error := none }
  else
    { success := false, found := false, card := none, detectedName := none,
      error := some "Lookup failed" }

/-- The overlay states a lookup can leave the page in. -/
inductive UIState where
  | idle
  | loadingSpinner
  | cardOverlay (card : CardRecord)
  | fallbackInput (prefill : String) (message : String)
deriving DecidableEq

/-- The `.then`/`.catch` continuation in `handleCardLookup`
(src/content.js): on resolution, `dismissOverlay()` then either
`showCardOverlay(result.card)` when `result.found && result.card &&
result.card.imageUrl`, or `showFallbackInput(result.detectedName || '',
'No card detected...')`; on rejection `showFallbackInput('', 'Unable to
detect card...')`.  Note that it runs unconditionally on arrival: nothing
consults the current overlay state. -/
def renderLookupResult (resp : LookupResponse) : UIState :=
  if resp.success then
    match resp.card with
    | some card =>
      if resp.found && card.imageUrl.isSome then .cardOverlay card
      else .fallbackInput (resp.detectedName.getD "")
        "No card detected. Please enter card name manually."
    | none =>
      .fallbackInput (resp.detectedName.getD "")
        "No card detected. Please enter card name manually."
  else
    .fallbackInput "" "Unable to detect card. Please enter card name manually."

/-- The events that drive the overlay state. -/
inductive UIEvent where
  | trigger
  | dismiss
  | response (resp : LookupResponse)
deriving DecidableEq

/-- One event step: a trigger always shows the loading spinner (it first
tears down any overlay), a dismissal removes every overlay element, and an
arriving response runs the continuation above — in every case the next
state does not depend on the previous one. -/
def uiStep (s : UIState) (e : UIEvent) : UIState :=
  match s, e with
  | _, .trigger => .loadingSpinner
  | _, .dismiss => .idle
  | _, .response resp => renderLookupResult resp

/-- The overlay state after a sequence of events. -/
def uiRun (s : UIState) (events : List UIEvent) : UIState :=
  events.foldl uiStep s

/-- C7 counterexample: when OCR detects a name but the card lookup is a
404, the handler's catch clause answers a bare 200 `{found: false}` with
no `detectedName`, so the fallback prompt the content script then shows is
pre-filled with the empty string, not with the detected text. -/
theorem detected_name_lost_on_not_found :
    (handler { byName := false, name := none, image := some validPngBytes } (some "k")
        (.success (some "Lightning Bolt")) (.httpError 404)).detectedName = none ∧
    (handler { byName := false, name := none, image := some validPngBytes } (some "k")
        (.success (some "Lightning Bolt")) (.httpError 404)).statusCode = 200 ∧
    (handler { byName := false, name := none, image := some validPngBytes } (some "k")
        (.success (some "Lightning Bolt")) (.httpError 404)).found = some false ∧
    renderLookupResult (backgroundRelay
      (handler { byName := false, name := none, image := some validPngBytes } (some "k")
        (.success (some "Lightning Bolt")) (.httpError 404))) =
      .fallbackInput "" "No card detected. Please enter card name manually." := by
  refine ⟨?_, ?_, ?_, ?_⟩ <;> decide

/-- C7 amended: a run in which OCR detects a usable name and the
card-database lookup answers 404 ends in the `NoMatch` outcome — HTTP 200
with `{found: false}`, never a 500 error — and the content script shows
the fallback text-entry prompt; but the prompt is pre-filled with the
empty string, because the not-found response carries no `detectedName`. -/
theorem not_found_routes_to_nomatch_with_empty_prefill
    (img : List Nat) (key text : String) (gemini : GeminiResponse)
    (hv : validateImage img = true) (hk : key ≠ "")
    (hocr : performOCR gemini = .ok (some text))
    (hname : String.mk (cleanCardName text.toList) ≠ "") :
    (handler { byName := false, name := none, image := some img } (some key)
        gemini (.httpError 404)).statusCode = 200 ∧
    (handler { byName := false, name := none, image := some img } (some key)
        gemini (.httpError 404)).found = some false ∧
    (handler { byName := false, name := none, image := some img } (some key)
        gemini (.httpError 404)).error = none ∧
    (handler { byName := false, name := none, image := some img } (some key)
        gemini (.httpError 404)).detectedName = none ∧
    renderLookupResult (backgroundRelay
      (handler { byName := false, name := none, image := some img } (some key)
        gemini (.httpError 404))) =
      .fallbackInput "" "No card detected. Please enter card name manually." := by
  have hlook : lookupCard (String.mk (cleanCardName text.toList)) (.httpError 404) =
      .error ("Card not found: \"" ++ String.mk (cleanCardName text.toList) ++ "\"") := rfl
  have hmain := handler_lookup_error_eq img key
    ("Card not found: \"" ++ String.mk (cleanCardName text.toList) ++ "\"") text
    gemini (.httpError 404) hv hk hocr hname hlook
  have hcatch := catchClause_of_not_found
    ("Card not found: \"" ++ String.mk (cleanCardName text.toList) ++ "\"") true true
    (card_not_found_message_includes (String.mk (cleanCardName text.toList)))
  rw [hmain, hcatch]
  refine ⟨rfl, rfl, rfl, rfl, rfl⟩

/-- Witness for C7's amended theorem at a concrete input. -/
theorem not_found_routes_to_nomatch_with_empty_prefill_witness :
    (handler { byName := false, name := none, image := some validPngBytes } (some "k")
        (.success (some "Lightning Bolt")) (.httpError 404)).statusCode = 200 ∧
    (handler { byName := false, name := none, image := some validPngBytes } (some "k")
        (.success (some "Lightning Bolt")) (.httpError 404)).found = some false ∧
    (handler { byName := false, name := none, image := some validPngBytes } (some "k")
        (.success (some "Lightning Bolt")) (.httpError 404)).error = none ∧
    (handler { byName := false, name := none, image := some validPngBytes } (some "k")
        (.success (some "Lightning Bolt")) (.httpError 404)).detectedName = none ∧
    renderLookupResult (backgroundRelay
      (handler { byName := false, name := none, image := some validPngBytes } (some "k")
        (.success (some "Lightning Bolt")) (.httpError 404))) =
      .fallbackInput "" "No card detected. Please enter card name manually." :=
  not_found_routes_to_nomatch_with_empty_prefill validPngBytes "k" "Lightning Bolt"
    (.success (some "Lightning Bolt")) (by decide) (by decide) rfl (by decide)

end MtgLookup

namespace MtgLookup

/-- A concrete found card for the stale-response scenario. -/
def boltCard : ScryfallCard :=
  { name := "Lightning Bolt"
    image_uris := some { normal := some "https://cards/normal.png", large := none }
    card_faces := none
    set := "lea"
    set_name := "Limited Edition Alpha"
    type_line := "Instant"
    oracle_text := some "Lightning Bolt deals 3 damage to any target."
    mana_cost := some "R"
    rarity := "common" }

/-- The successful lookup response carrying `boltCard`. -/
def boltResponse : LookupResponse :=
  { success := true, found := true, card := some (buildCardRecord boltCard),
    detectedName := some "Lightning Bolt", error := none }

/-- C9 counterexample: trigger a lookup, dismiss while it is in flight,
then let the stale response arrive — the overlay shows the card anyway.
Nothing in `dismissOverlay` or the response continuation marks the run as
superseded, so the state after the stale arrival is the card overlay, not
`Idle`. -/
theorem stale_response_rendered_after_dismissal :
    uiRun .idle [.trigger, .dismiss, .response boltResponse] =
      .cardOverlay (buildCardRecord boltCard) ∧
    uiRun .idle [.trigger, .dismiss, .response boltResponse] ≠ .idle := by
  refine ⟨rfl, ?_⟩
  intro h
  cases h

/-- C9 amended: a dismissal does return the overlay to `Idle` immediately,
from any state; but an in-flight request's result is not dropped — the
response continuation renders purely from the response, ignoring the
current state, so after any event history ending in a dismissal the stale
arrival still produces the card overlay or fallback prompt that the
response alone dictates. -/
theorem dismissal_immediate_but_stale_result_rendered
    (s : UIState) (resp : LookupResponse) (events : List UIEvent) :
    uiStep s .dismiss = .idle ∧
    uiStep s (.response resp) = renderLookupResult resp ∧
    uiRun s (events ++ [.dismiss, .response resp]) = renderLookupResult resp := by
  refine ⟨rfl, rfl, ?_⟩
  unfold uiRun
  rw [List.foldl_append]
  rfl

end MtgLookup

namespace MtgLookup

/-! ### Region Capturer — `captureRegionAroundCursor` (src/content.js)

The geometry of the capture rectangle and the canvas created from it.
JavaScript numbers here are exact on halves, so they are modelled as `ℚ`.
The canvas is created with `canvas.width = width * scale` at the fixed
`scale = 2`. -/

structure CaptureCanvas where
  startX : ℚ
  startY : ℚ
  endX : ℚ
  endY : ℚ
  width : ℚ
  height : ℚ
  canvasWidth : ℚ
  canvasHeight : ℚ
deriving DecidableEq

/-- The region-bounds computation of `captureRegionAroundCursor`:
`startX = Math.max(0, cursorX - regionWidth / 2)`,
`endX = Math.min(window.innerWidth, startX + regionWidth)` (and the same
for Y), `width = endX - startX`, `canvas.width = width * 2`. -/
def captureRegionAroundCursor (cursorX cursorY regionWidth regionHeight
    innerWidth innerHeight : ℚ) : CaptureCanvas :=
  let startX := max 0 (cursorX - regionWidth / 2)
  let startY := max 0 (cursorY - regionHeight / 2)
  let endX := min innerWidth (startX + regionWidth)
  let endY := min innerHeight (startY + regionHeight)
  let width := endX - startX
  let height := endY - startY
  { startX := startX, startY := startY, endX := endX, endY := endY,
    width := width, height := height,
    canvasWidth := width * 2, canvasHeight := height * 2 }

/-- C8 counterexample: with the standard 125×60 region in a 1000×800
viewport and the cursor at x = 990 near the right edge, the rectangle is
clipped, not shifted: its width is 72.5 instead of 125, and the canvas is
145 pixels wide instead of the expected 250. -/
theorem capture_clipped_at_right_edge :
    (captureRegionAroundCursor 990 400 125 60 1000 800).width = 145 / 2 ∧
    (captureRegionAroundCursor 990 400 125 60 1000 800).canvasWidth = 145 ∧
    (captureRegionAroundCursor 990 400 125 60 1000 800).canvasWidth ≠ 250 := by
  have hmax : max (0 : ℚ) (990 - 125 / 2) = 1855 / 2 := by
    rw [max_eq_right (by norm_num)]
    norm_num
  have hmin : min (1000 : ℚ) (1855 / 2 + 125) = 1000 := by
    rw [min_eq_left (by norm_num)]
  refine ⟨?_, ?_, ?_⟩ <;>
    · simp only [captureRegionAroundCursor, hmax, hmin]
      norm_num

/-- C8 amended: the capture rectangle never extends past 0 or the viewport
edges; at the left/top edge the start is clamped to 0 and the rectangle
keeps its full size whenever it fits (it shifts rather than clips); but at
the right/bottom edge only the end is clamped, so the rectangle is clipped
smaller, and the canvas has the full `2 × region` dimensions exactly when
the (left-clamped) rectangle fits within the right/bottom bounds. -/
theorem capture_rect_clamped_and_clipped
    (cursorX cursorY regionW regionH innerW innerH : ℚ)
    (hw : 0 ≤ regionW) (hh : 0 ≤ regionH)
    (hcx0 : 0 ≤ cursorX) (hcx : cursorX ≤ innerW)
    (hcy0 : 0 ≤ cursorY) (hcy : cursorY ≤ innerH) :
    (0 ≤ (captureRegionAroundCursor cursorX cursorY regionW regionH innerW innerH).startX ∧
     (captureRegionAroundCursor cursorX cursorY regionW regionH innerW innerH).endX ≤ innerW ∧
     (captureRegionAroundCursor cursorX cursorY regionW regionH innerW innerH).startX ≤
       (captureRegionAroundCursor cursorX cursorY regionW regionH innerW innerH).endX ∧
     0 ≤ (captureRegionAroundCursor cursorX cursorY regionW regionH innerW innerH).startY ∧
     (captureRegionAroundCursor cursorX cursorY regionW regionH innerW innerH).endY ≤ innerH ∧
     (captureRegionAroundCursor cursorX cursorY regionW regionH innerW innerH).startY ≤
       (captureRegionAroundCursor cursorX cursorY regionW regionH innerW innerH).endY) ∧
    ((captureRegionAroundCursor cursorX cursorY regionW regionH innerW innerH).startX
        + regionW ≤ innerW →
      (captureRegionAroundCursor cursorX cursorY regionW regionH innerW innerH).width
          = regionW ∧
      (captureRegionAroundCursor cursorX cursorY regionW regionH innerW innerH).canvasWidth
          = regionW * 2) ∧
    (innerW <
        (captureRegionAroundCursor cursorX cursorY regionW regionH innerW innerH).startX
          + regionW →
      (captureRegionAroundCursor cursorX cursorY regionW regionH innerW innerH).endX
          = innerW ∧
      (captureRegionAroundCursor cursorX cursorY regionW regionH innerW innerH).width
          < regionW) ∧
    ((captureRegionAroundCursor cursorX cursorY regionW regionH innerW innerH).startY
        + regionH ≤ innerH →
      (captureRegionAroundCursor cursorX cursorY regionW regionH innerW innerH).height
          = regionH ∧
      (captureRegionAroundCursor cursorX cursorY regionW regionH innerW innerH).canvasHeight
          = regionH * 2) ∧
    (innerH <
        (captureRegionAroundCursor cursorX cursorY regionW regionH innerW innerH).startY
          + regionH →
      (captureRegionAroundCursor cursorX cursorY regionW regionH innerW innerH).endY
          = innerH ∧
      (captureRegionAroundCursor cursorX cursorY regionW regionH innerW innerH).height
          < regionH) := by
  simp only [captureRegionAroundCursor]
  have hiw : (0 : ℚ) ≤ innerW := le_trans hcx0 hcx
  have hih : (0 : ℚ) ≤ innerH := le_trans hcy0 hcy
  have hsx0 : (0 : ℚ) ≤ max 0 (cursorX - regionW / 2) := le_max_left _ _
  have hsxw : max 0 (cursorX - regionW / 2) ≤ innerW :=
    max_le hiw (by linarith)
  have hsy0 : (0 : ℚ) ≤ max 0 (cursorY - regionH / 2) := le_max_left _ _
  have hsyh : max 0 (cursorY - regionH / 2) ≤ innerH :=
    max_le hih (by linarith)
  refine ⟨⟨hsx0, min_le_left _ _, le_min hsxw (by linarith), hsy0,
    min_le_left _ _, le_min hsyh (by linarith)⟩, ?_, ?_, ?_, ?_⟩
  · intro hfit
    rw [min_eq_right hfit]
    constructor <;> ring
  · intro hclip
    rw [min_eq_left (le_of_lt hclip)]
    exact ⟨rfl, by linarith⟩
  · intro hfit
    rw [min_eq_right hfit]
    constructor <;> ring
  · intro hclip
    rw [min_eq_left (le_of_lt hclip)]
    exact ⟨rfl, by linarith⟩

/-- Witness for C8's amended theorem: with the cursor centred in a
1000×800 viewport the rectangle fits, so the canvas is exactly 250×120. -/
theorem capture_rect_clamped_and_clipped_witness :
    (captureRegionAroundCursor 500 400 125 60 1000 800).canvasWidth = 125 * 2 ∧
    (captureRegionAroundCursor 500 400 125 60 1000 800).canvasHeight = 60 * 2 := by
  have h := capture_rect_clamped_and_clipped 500 400 125 60 1000 800
    (by norm_num) (by norm_num) (by norm_num) (by norm_num) (by norm_num) (by norm_num)
  have hfitX : (captureRegionAroundCursor 500 400 125 60 1000 800).startX + 125 ≤ 1000 := by
    have : (captureRegionAroundCursor 500 400 125 60 1000 800).startX = 875 / 2 := by
      simp only [captureRegionAroundCursor]
      rw [max_eq_right (by norm_num)]
      norm_num
    rw [this]; norm_num
  have hfitY : (captureRegionAroundCursor 500 400 125 60 1000 800).startY + 60 ≤ 800 := by
    have : (captureRegionAroundCursor 500 400 125 60 1000 800).startY = 370 := by
      simp only [captureRegionAroundCursor]
      rw [max_eq_right (by norm_num)]
      norm_num
    rw [this]; norm_num
  exact ⟨(h.2.1 hfitX).2, (h.2.2.2.1 hfitY).2⟩

end MtgLookup
